import Mathlib

/-!
Shallow embedding of the metrics aggregation engine of
`ibp-geodns-api-exporter` (`src/metrics/metrics.service.ts`).

Pure string helpers model the JavaScript string operations on ASCII data;
the Prometheus registry is modelled as association lists from label tuples
to values; the reconciliation passes of `updateMetricsForMember` and
`updateMetricsForAllMembers` are modelled as folds over explicit state.
-/

namespace IbpGeodns

/-- JS `String.prototype.toLowerCase` restricted to ASCII data. -/
def jsToLower (s : String) : String := ⟨s.data.map Char.toLower⟩

/-- JS `str.replace(/\s+/g, '-')` on a character list: every maximal run of
whitespace characters becomes a single hyphen. -/
def collapseWs : List Char → List Char
  | [] => []
  | [c] => if c.isWhitespace then ['-'] else [c]
  | c :: c' :: cs =>
    if c.isWhitespace then
      if c'.isWhitespace then collapseWs (c' :: cs)
      else '-' :: collapseWs (c' :: cs)
    else c :: collapseWs (c' :: cs)

/-- `service.toLowerCase().replace(/\s+/g, '-')` — the service-name slug. -/
def jsSlug (s : String) : String := ⟨collapseWs (jsToLower s).data⟩

/-- JS `domain.split('.')[0]`: the substring before the first dot. -/
def beforeFirstDot (s : String) : String := ⟨s.data.takeWhile (fun c => c ≠ '.')⟩

/-- JS `str.split('-')` on a character list (keeps empty segments). -/
def splitHyphen : List Char → List (List Char)
  | [] => [[]]
  | c :: cs =>
    if c = '-' then [] :: splitHyphen cs
    else
      match splitHyphen cs with
      | [] => [[c]]
      | w :: ws => (c :: w) :: ws

/-- JS `word.charAt(0).toUpperCase() + word.slice(1)` on a character list. -/
def titleWord : List Char → List Char
  | [] => []
  | c :: cs => Char.toUpper c :: cs

/-- Join hyphen-separated words back together, JS `arr.join('-')`. -/
def joinHyphen (ws : List (List Char)) : List Char := (List.intersperse ['-'] ws).flatten

/-- Title-case each hyphen-separated segment and re-join:
`"eth-asset-hub".split('-').map(w => w.charAt(0).toUpperCase() + w.slice(1)).join('-')`. -/
def titleCaseHyphen (s : String) : String := ⟨joinHyphen ((splitHyphen s.data).map titleWord)⟩

/-- Does `hay` start with `needle`? -/
def listStarts : List Char → List Char → Bool
  | _, [] => true
  | [], _ :: _ => false
  | h :: hs, n :: ns => h = n && listStarts hs ns

/-- Does `needle` occur contiguously inside `hay`? -/
def listInfix : List Char → List Char → Bool
  | [], needle => needle.isEmpty
  | h :: hs, needle => listStarts (h :: hs) needle || listInfix hs needle

/-- JS `a.includes(b)`: `b` occurs as a contiguous substring of `a`. -/
def jsIncludes (a b : String) : Bool := listInfix a.data b.data

/-! ## Data model (`api-client.service.ts`) -/

/-- The fields of `Member` read by the metrics engine. -/
structure Member where
  name : String
  region : String
  level : Int
  services : List String
  active : Bool
deriving DecidableEq

/-- The fields of `DowntimeEvent` read by the metrics engine. -/
structure DowntimeEvent where
  member_name : String
  check_type : String
  check_name : String
  domain_name : String
  status : String
deriving DecidableEq

/-- One service-tier group of the services config. `level_required` is stored
already parsed (the TS code applies `parseInt` to the upstream string);
`endpoints` are the keys of the group's endpoint object. -/
structure GroupConfig where
  level_required : Int
  endpoints : List String
deriving DecidableEq

/-- `ServiceConfig`: mapping from group key to its config, in object-key order. -/
abbrev ServiceConfig := List (String × GroupConfig)

/-! ## Metrics registry -/

/-- Labels of `ibp_member_status`. -/
structure MemberLabels where
  member : String
  region : String
  level : String
deriving DecidableEq

/-- Labels of `ibp_service_status`. -/
structure ServiceLabels where
  member : String
  service : String
  domain : String
  check_type : String
  check_name : String
  level : String
deriving DecidableEq

/-- Labels of `ibp_downtime_events_total`. -/
structure EventLabels where
  member : String
  service : String
  domain : String
  check_type : String
  check_name : String
  status : String
deriving DecidableEq

/-- Association-list update: replace the value at `k` in place, or append. -/
def setAssoc {α β : Type} [DecidableEq α] : List (α × β) → α → β → List (α × β)
  | [], k, v => [(k, v)]
  | (k', v') :: rest, k, v =>
    if k' = k then (k, v) :: rest else (k', v') :: setAssoc rest k v

/-- Association-list counter increment: add one at `k`, or append `(k, 1)`. -/
def incAssoc {α : Type} [DecidableEq α] : List (α × Nat) → α → List (α × Nat)
  | [], k => [(k, 1)]
  | (k', v') :: rest, k =>
    if k' = k then (k, v' + 1) :: rest else (k', v') :: incAssoc rest k

/-- Association-list lookup. -/
def getAssoc {α β : Type} [DecidableEq α] : List (α × β) → α → Option β
  | [], _ => none
  | (k', v') :: rest, k => if k' = k then some v' else getAssoc rest k

/-- The registry state: three exported series as label-tuple → value maps. -/
structure Registry where
  memberGauge : List (MemberLabels × Int)
  serviceGauge : List (ServiceLabels × Int)
  eventCounter : List (EventLabels × Nat)
deriving DecidableEq

def emptyRegistry : Registry := ⟨[], [], []⟩

/-- `gauge.reset()` on all three series. -/
def resetAll (_reg : Registry) : Registry := emptyRegistry

/-- Does any series hold a label combination whose `member` label is `n`? -/
def mentionsMember (reg : Registry) (n : String) : Bool :=
  reg.memberGauge.any (fun p => p.1.member = n) ||
  reg.serviceGauge.any (fun p => p.1.member = n) ||
  reg.eventCounter.any (fun p => p.1.member = n)

/-! ## Domain / service name heuristics (`metrics.service.ts`) -/

/-- The substring-containment test of the first matching phase of
`matchServiceFromDomain`: either direction of `includes` between the
lower-cased domain part before the first dot and the service slug. -/
def substrMatch (domainPart : String) (service : String) : Bool :=
  jsIncludes domainPart (jsSlug service) || jsIncludes (jsSlug service) domainPart

/-- The lower-cased part of the domain before its first dot
(`domain.split('.')[0].toLowerCase()`). -/
def domainPart (domain : String) : String := jsToLower (beforeFirstDot domain)

/-- `matchServiceFromDomain(domain, availableServices)`. -/
def matchServiceFromDomain (domain : String) (availableServices : List String) : String :=
  match availableServices.find? (substrMatch (domainPart domain)) with
  | some service => service
  | none =>
    let serviceName := titleCaseHyphen (domainPart domain)
    match availableServices.find? (fun service => jsToLower service = jsToLower serviceName) with
    | some service => service
    | none => serviceName

/-- `createDefaultDomain(service)`. -/
def createDefaultDomain (service : String) : String := jsSlug service ++ ".ibp.network"

/-- `mapEndpointToServiceName(endpoint)`. -/
def mapEndpointToServiceName (endpoint : String) : String := titleCaseHyphen endpoint

/-- JS `Set.add`: append unless already present (insertion-ordered set on a list). -/
def addUnique (xs : List String) (x : String) : List String :=
  if x ∈ xs then xs else xs ++ [x]

/-- `getRequiredServicesByLevel(level, servicesConfig)`: over every group whose
`level_required` the member meets, collect the title-cased endpoint names. -/
def getRequiredServicesByLevel (level : Int) (servicesConfig : ServiceConfig) : List String :=
  servicesConfig.foldl
    (fun acc entry =>
      if entry.2.level_required ≤ level then
        entry.2.endpoints.foldl (fun acc e => addUnique acc (mapEndpointToServiceName e)) acc
      else acc)
    []

/-! ## Cached member data -/

/-- `CachedMemberData` (cache value object). `requiredServices` is a JS `Set`
modelled as its insertion-ordered element list. -/
structure CachedMemberData where
  member : Member
  downtimeEvents : List DowntimeEvent
  requiredServices : List String
  servicesConfig : Option ServiceConfig
  fetchedAt : Int
deriving DecidableEq

/-! ## Status reconciliation -/

/-- The per-member mutable state of one reconciliation pass: the registry plus
the `trackedCombinations` and `servicesWithEvents` sets (insertion-ordered). -/
structure ReconState where
  reg : Registry
  tracked : List String
  seenServices : List String
deriving DecidableEq

/-- The `` `${domain}:${check_type}:${check_name}` `` combination key. -/
def combKey (domain check_type check_name : String) : String :=
  domain ++ ":" ++ check_type ++ ":" ++ check_name

/-- Service-gauge labels derived from one downtime event. -/
def eventServiceLabels (member : Member) (serviceName : String) (e : DowntimeEvent) :
    ServiceLabels :=
  ⟨member.name, serviceName, e.domain_name, e.check_type, e.check_name, toString member.level⟩

/-- Event-counter labels derived from one downtime event. -/
def eventCounterLabels (member : Member) (serviceName : String) (e : DowntimeEvent) :
    EventLabels :=
  ⟨member.name, serviceName, e.domain_name, e.check_type, e.check_name, e.status⟩

/-- One iteration of the event loop of `updateMetricsForMember`: the resolved
service and combination key enter the tracking sets BEFORE the
`event.member_name !== member.name` safety check. -/
def processEventSingle (member : Member) (st : ReconState) (e : DowntimeEvent) : ReconState :=
  let serviceName := matchServiceFromDomain e.domain_name member.services
  let key := combKey e.domain_name e.check_type e.check_name
  let tracked := addUnique st.tracked key
  let seen := addUnique st.seenServices serviceName
  if e.member_name = member.name then
    { reg :=
        { st.reg with
          eventCounter := incAssoc st.reg.eventCounter (eventCounterLabels member serviceName e)
          serviceGauge := setAssoc st.reg.serviceGauge (eventServiceLabels member serviceName e)
            (if e.status = "ongoing" then 0 else 1) }
      tracked := tracked
      seenServices := seen }
  else
    { st with tracked := tracked, seenServices := seen }

/-- One iteration of the event loop of `updateMetricsForAllMembers`: here the
`event.member_name !== cachedMember.name` safety check comes FIRST, so a
mismatched event touches nothing at all. -/
def processEventAll (member : Member) (st : ReconState) (e : DowntimeEvent) : ReconState :=
  if e.member_name = member.name then
    let serviceName := matchServiceFromDomain e.domain_name member.services
    let key := combKey e.domain_name e.check_type e.check_name
    { reg :=
        { st.reg with
          eventCounter := incAssoc st.reg.eventCounter (eventCounterLabels member serviceName e)
          serviceGauge := setAssoc st.reg.serviceGauge (eventServiceLabels member serviceName e)
            (if e.status = "ongoing" then 0 else 1) }
      tracked := addUnique st.tracked key
      seenServices := addUnique st.seenServices serviceName }
  else st

/-- The service-gauge labels of the required-service "no-stats" fallback. -/
def requiredLabels (member : Member) (s : String) : ServiceLabels :=
  ⟨member.name, s, createDefaultDomain s, "required", "no-stats", toString member.level⟩

/-- The combination key the required-service fallback guards on. -/
def requiredKey (s : String) : String := combKey (createDefaultDomain s) "required" "no-stats"

/-- One iteration of the required-services loop (identical in both passes). -/
def requiredStep (member : Member) (st : ReconState) (s : String) : ReconState :=
  if s ∈ st.seenServices then st
  else if s ∈ member.services then
    if requiredKey s ∈ st.tracked then st
    else
      { st with
        reg := { st.reg with serviceGauge := setAssoc st.reg.serviceGauge (requiredLabels member s) 1 }
        tracked := addUnique st.tracked (requiredKey s) }
  else st

/-- The service-gauge labels of the non-required "default" fallback. -/
def defaultLabels (member : Member) (s : String) : ServiceLabels :=
  ⟨member.name, s, createDefaultDomain s, "default", "default", toString member.level⟩

/-- One iteration of the declared-services loop (identical in both passes);
note the code checks the tracked set but never adds to it here. -/
def defaultStep (member : Member) (requiredServices : List String) (st : ReconState)
    (s : String) : ReconState :=
  if s ∈ st.seenServices then st
  else if s ∈ requiredServices then st
  else if combKey (createDefaultDomain s) "default" "default" ∈ st.tracked then st
  else
    { st with
      reg := { st.reg with serviceGauge := setAssoc st.reg.serviceGauge (defaultLabels member s) 1 } }

/-- Member-gauge labels of a member. -/
def memberLabels (member : Member) : MemberLabels :=
  ⟨member.name, member.region, toString member.level⟩

/-- The initial per-member state: member gauge set to `active ? 1 : 0`, both
tracking sets empty. -/
def memberInit (reg : Registry) (member : Member) : ReconState :=
  ⟨{ reg with
      memberGauge := setAssoc reg.memberGauge (memberLabels member)
        (if member.active then 1 else 0) },
    [], []⟩

/-- The state after the event loop of the single-member pass. -/
def eventsPassSingle (reg : Registry) (d : CachedMemberData) : ReconState :=
  d.downtimeEvents.foldl (processEventSingle d.member) (memberInit reg d.member)

/-- The state after the required-services loop of the single-member pass. -/
def afterRequiredSingle (reg : Registry) (d : CachedMemberData) : ReconState :=
  d.requiredServices.foldl (requiredStep d.member) (eventsPassSingle reg d)

/-- The body of `updateMetricsForMember` applied on top of registry `reg`
(the function itself resets first, see `updateMetricsForMember`). -/
def applyMemberSingle (reg : Registry) (d : CachedMemberData) : Registry :=
  let st := afterRequiredSingle reg d
  (if d.member.active then
    d.member.services.foldl (defaultStep d.member d.requiredServices) st
  else st).reg

/-- The state after the event loop of the per-member body of the
all-members pass. -/
def eventsPassAll (reg : Registry) (d : CachedMemberData) : ReconState :=
  d.downtimeEvents.foldl (processEventAll d.member) (memberInit reg d.member)

/-- The state after the required-services loop of the all-members per-member body. -/
def afterRequiredAll (reg : Registry) (d : CachedMemberData) : ReconState :=
  d.requiredServices.foldl (requiredStep d.member) (eventsPassAll reg d)

/-- The per-member body of `updateMetricsForAllMembers` applied on top of `reg`. -/
def applyMemberAll (reg : Registry) (d : CachedMemberData) : Registry :=
  let st := afterRequiredAll reg d
  (if d.member.active then
    d.member.services.foldl (defaultStep d.member d.requiredServices) st
  else st).reg

/-- `updateMetricsForMember`: reset all three series, then reconcile the one
member's cached data (the fetch itself is modelled separately). -/
def updateMetricsForMember (prev : Registry) (d : CachedMemberData) : Registry :=
  applyMemberSingle (resetAll prev) d

/-- `updateMetricsForAllMembers`: reset once, then fold the per-member body
over the member listing; `fetch name = none` models a thrown per-member fetch
(caught, logged and skipped by `continue`). -/
def updateMetricsForAllMembers (prev : Registry) (members : List Member)
    (fetch : String → Option CachedMemberData) : Registry :=
  members.foldl
    (fun reg m =>
      match fetch m.name with
      | none => reg
      | some d => applyMemberAll reg d)
    (resetAll prev)

/-! ## Member cache (`isCacheValid` / `getCachedOrFetchMemberData`) -/

/-- The member cache, a JS `Map` keyed by member name. -/
abbrev Cache := List (String × CachedMemberData)

/-- The upstream responses one `getCachedOrFetchMemberData` call would see:
`getMemberByName` (`none` = member absent), `getDowntimeEvents` and
`getServicesConfig` (`.error` = the call threw and is caught). -/
structure Upstream where
  memberByName : Option Member
  downtimeEvents : Except Unit (List DowntimeEvent)
  servicesConfig : Except Unit ServiceConfig

/-- `isCacheValid(memberName)` at time `now` with TTL `ttl` (milliseconds). -/
def isCacheValid (cache : Cache) (memberName : String) (now ttl : Int) : Bool :=
  match getAssoc cache memberName with
  | none => false
  | some cached => now - cached.fetchedAt < ttl

/-- The result of one `getCachedOrFetchMemberData` call: the returned data,
the cache afterwards, and whether an upstream fetch was performed. -/
structure FetchOutcome where
  data : CachedMemberData
  cache : Cache
  didFetch : Bool
deriving DecidableEq

/-- The fresh `CachedMemberData` built by the fetch path of
`getCachedOrFetchMemberData`: a failed events call is caught and degrades to
`[]`, a failed config call is caught and degrades to an empty required set
with no stored config; `fetchedAt = now`. -/
def fetchFresh (member : Member) (u : Upstream) (now : Int) : CachedMemberData :=
  { member := member
    downtimeEvents :=
      match u.downtimeEvents with
      | .ok evs => evs
      | .error _ => []
    requiredServices :=
      match u.servicesConfig with
      | .ok cfg => getRequiredServicesByLevel member.level cfg
      | .error _ => []
    servicesConfig :=
      match u.servicesConfig with
      | .ok cfg => some cfg
      | .error _ => none
    fetchedAt := now }

/-- `getCachedOrFetchMemberData(memberName)`: on a valid cache hit return the
entry unchanged with no upstream call; otherwise fetch the member (error when
absent), build the possibly degraded fresh entry and store it. -/
def getCachedOrFetchMemberData (cache : Cache) (memberName : String) (now ttl : Int)
    (u : Upstream) : Except String FetchOutcome :=
  match (if isCacheValid cache memberName now ttl then getAssoc cache memberName else none) with
  | some cached => .ok ⟨cached, cache, false⟩
  | none =>
    match u.memberByName with
    | none => .error ("Member " ++ memberName ++ " not found")
    | some member =>
      .ok ⟨fetchFresh member u now, setAssoc cache memberName (fetchFresh member u now), true⟩

/-! ## Concrete sample data used by theorems and witnesses -/

/-- The member of the end-to-end example of the spec (a region value is fixed,
the example leaves it unspecified). -/
def memberC1 : Member := ⟨"M", "region", 2, ["Polkadot", "Kusama"], true⟩

/-- The single downtime event of the end-to-end example. -/
def eventC1 : DowntimeEvent := ⟨"M", "endpoint", "rpc", "polkadot.ibp.network", "ongoing"⟩

/-- The cached data of the end-to-end example: required set {"Polkadot"}. -/
def dataC1 : CachedMemberData := ⟨memberC1, [eventC1], ["Polkadot"], none, 0⟩

/-- A member used to exhibit the mismatched-event divergence. -/
def memberMis : Member := ⟨"M", "r", 2, ["Polkadot"], false⟩

/-- A downtime event whose `member_name` differs from `memberMis.name`. -/
def eventMis : DowntimeEvent := ⟨"N", "c", "n", "polkadot.ibp.network", "ongoing"⟩

/-- Cached data holding only the mismatched event, with Polkadot required. -/
def dataMis : CachedMemberData := ⟨memberMis, [eventMis], ["Polkadot"], none, 0⟩

/-! ## Helper lemmas on association lists -/

theorem getAssoc_setAssoc {α β : Type} [DecidableEq α] (l : List (α × β)) (k k' : α) (v : β) :
    getAssoc (setAssoc l k v) k' = if k = k' then some v else getAssoc l k' := by
  induction l with
  | nil => simp [setAssoc, getAssoc]
  | cons a rest ih =>
    obtain ⟨ak, av⟩ := a
    by_cases h1 : ak = k
    · subst h1
      by_cases h2 : ak = k' <;> simp [setAssoc, getAssoc, h2]
    · by_cases h2 : ak = k'
      · subst h2
        have hk : ¬ k = ak := fun h => h1 h.symm
        simp [setAssoc, getAssoc, h1, hk]
      · simp [setAssoc, getAssoc, h1, h2, ih]

theorem getAssoc_setAssoc_self {α β : Type} [DecidableEq α] (l : List (α × β)) (k : α) (v : β) :
    getAssoc (setAssoc l k v) k = some v := by
  simp [getAssoc_setAssoc]

theorem getAssoc_setAssoc_ne {α β : Type} [DecidableEq α] (l : List (α × β)) (k k' : α) (v : β)
    (h : k ≠ k') : getAssoc (setAssoc l k v) k' = getAssoc l k' := by
  simp [getAssoc_setAssoc, h]

theorem getAssoc_incAssoc {α : Type} [DecidableEq α] (l : List (α × Nat)) (k k' : α) :
    getAssoc (incAssoc l k) k' =
      if k = k' then some ((getAssoc l k).getD 0 + 1) else getAssoc l k' := by
  induction l with
  | nil => simp [incAssoc, getAssoc]
  | cons a rest ih =>
    obtain ⟨ak, av⟩ := a
    by_cases h1 : ak = k
    · subst h1
      by_cases h2 : ak = k' <;> simp [incAssoc, getAssoc, h2]
    · by_cases h2 : ak = k'
      · subst h2
        have hk : ¬ k = ak := fun h => h1 h.symm
        simp [incAssoc, getAssoc, h1, hk]
      · simp [incAssoc, getAssoc, h1, h2, ih]

theorem any_setAssoc {α β : Type} [DecidableEq α] (l : List (α × β)) (k : α) (v : β)
    (f : α → Bool) :
    (setAssoc l k v).any (fun p => f p.1) = (l.any (fun p => f p.1) || f k) := by
  induction l with
  | nil => simp [setAssoc]
  | cons a rest ih =>
    by_cases h1 : a.1 = k
    · simp [setAssoc, h1]
      by_cases hf : f k <;> simp [hf, h1]
    · simp [setAssoc, h1, ih]
      by_cases hf : f a.1 <;> simp [hf, Bool.or_assoc]

theorem any_incAssoc {α : Type} [DecidableEq α] (l : List (α × Nat)) (k : α) (f : α → Bool) :
    (incAssoc l k).any (fun p => f p.1) = (l.any (fun p => f p.1) || f k) := by
  induction l with
  | nil => simp [incAssoc]
  | cons a rest ih =>
    by_cases h1 : a.1 = k
    · simp [incAssoc, h1]
      by_cases hf : f k <;> simp [hf, h1]
    · simp [incAssoc, h1, ih]
      by_cases hf : f a.1 <;> simp [hf, Bool.or_assoc]

theorem find?_first {α : Type} (p : α → Bool) (l1 : List α) (s : α) (l2 : List α)
    (h1 : ∀ x ∈ l1, p x = false) (h2 : p s = true) :
    (l1 ++ s :: l2).find? p = some s := by
  induction l1 with
  | nil => simp [List.find?, h2]
  | cons a rest ih =>
    have ha : p a = false := h1 a (by simp)
    simp only [List.cons_append, List.find?, ha]
    exact ih fun x hx => h1 x (by simp [hx])

theorem find?_none {α : Type} (p : α → Bool) (l : List α)
    (h : ∀ x ∈ l, p x = false) : l.find? p = none := by
  induction l with
  | nil => simp [List.find?]
  | cons a rest ih =>
    have ha : p a = false := h a (by simp)
    simp only [List.find?, ha]
    exact ih fun x hx => h x (by simp [hx])

/-! ## Claims -/

/-- C1: for member {name:"M", level:2, active:true, services:["Polkadot","Kusama"]}
with required set {"Polkadot"} and exactly one cached downtime event
(M, polkadot.ibp.network, endpoint, rpc, ongoing), `updateMetricsForMember "M"`
produces: member gauge 1 at (M, region, "2"); service gauge 0 at
(M, Polkadot, polkadot.ibp.network, endpoint, rpc, "2"); service gauge 1 at
(M, Kusama, kusama.ibp.network, default, default, "2"); event counter 1 at
(M, Polkadot, polkadot.ibp.network, endpoint, rpc, ongoing); and nothing else. -/
theorem updateMetricsForMember_end_to_end :
    updateMetricsForMember emptyRegistry dataC1 =
      { memberGauge := [(⟨"M", "region", "2"⟩, 1)]
        serviceGauge :=
          [(⟨"M", "Polkadot", "polkadot.ibp.network", "endpoint", "rpc", "2"⟩, 0),
           (⟨"M", "Kusama", "kusama.ibp.network", "default", "default", "2"⟩, 1)]
        eventCounter :=
          [(⟨"M", "Polkadot", "polkadot.ibp.network", "endpoint", "rpc", "ongoing"⟩, 1)] } := by
  decide

/-- C3 counterexample: the claim routes ("kusama.ibp.network", ["Kusama"])
through phase (2), the case-insensitive reconstructed-name match, which by the
claim's own precedence only applies when phase (1) produced no match; but the
phase-(1) substring test already succeeds on "Kusama", so the pair resolves in
phase (1), not phase (2). -/
theorem kusama_resolves_by_substring :
    substrMatch (domainPart "kusama.ibp.network") "Kusama" = true ∧
    List.find? (substrMatch (domainPart "kusama.ibp.network")) ["Kusama"] = some "Kusama" ∧
    matchServiceFromDomain "kusama.ibp.network" ["Kusama"] = "Kusama" := by
  refine ⟨by decide, by decide, by decide⟩

/-- C3 (amended): `matchServiceFromDomain` is total and follows the exact
precedence: (1) first service in list order passing the either-direction
substring test between the lower-cased domain part before the first dot and the
service slug; (2) otherwise the first service equal, case-insensitively, to the
title-cased reconstruction of the prefix; (3) otherwise the reconstruction
itself. ("eth-asset-hub-polkadot.ibp.network", ["Asset-Hub-Polkadot"]) and
("kusama.ibp.network", ["Kusama"]) both resolve via the substring phase;
("unknown-thing.ibp.network", ["Polkadot"]) falls through to "Unknown-Thing". -/
theorem matchServiceFromDomain_precedence :
    (∀ domain l1 s l2,
       (∀ s' ∈ l1, substrMatch (domainPart domain) s' = false) →
       substrMatch (domainPart domain) s = true →
       matchServiceFromDomain domain (l1 ++ s :: l2) = s) ∧
    (∀ domain l1 s l2,
       (∀ s' ∈ l1 ++ s :: l2, substrMatch (domainPart domain) s' = false) →
       (∀ s' ∈ l1, jsToLower s' ≠ jsToLower (titleCaseHyphen (domainPart domain))) →
       jsToLower s = jsToLower (titleCaseHyphen (domainPart domain)) →
       matchServiceFromDomain domain (l1 ++ s :: l2) = s) ∧
    (∀ domain services,
       (∀ s' ∈ services, substrMatch (domainPart domain) s' = false ∧
          jsToLower s' ≠ jsToLower (titleCaseHyphen (domainPart domain))) →
       matchServiceFromDomain domain services = titleCaseHyphen (domainPart domain)) ∧
    matchServiceFromDomain "eth-asset-hub-polkadot.ibp.network" ["Asset-Hub-Polkadot"] =
      "Asset-Hub-Polkadot" ∧
    matchServiceFromDomain "kusama.ibp.network" ["Kusama"] = "Kusama" ∧
    matchServiceFromDomain "unknown-thing.ibp.network" ["Polkadot"] = "Unknown-Thing" := by
  refine ⟨?_, ?_, ?_, by decide, by decide, by decide⟩
  · intro domain l1 s l2 h1 h2
    simp [matchServiceFromDomain, find?_first _ l1 s l2 h1 h2]
  · intro domain l1 s l2 h1 h2 h3
    have hnone := find?_none _ _ h1
    have hfirst :
        List.find?
          (fun service =>
            decide (jsToLower service = jsToLower (titleCaseHyphen (domainPart domain))))
          (l1 ++ s :: l2) = some s := by
      refine find?_first _ l1 s l2 (fun x hx => ?_) (by simp [h3])
      simp [h2 x hx]
    simp [matchServiceFromDomain, hnone, hfirst]
  · intro domain services h
    have hnone := find?_none (substrMatch (domainPart domain)) services fun x hx => (h x hx).1
    have hnone2 :
        List.find?
          (fun service =>
            decide (jsToLower service = jsToLower (titleCaseHyphen (domainPart domain))))
          services = none := by
      refine find?_none _ _ fun x hx => ?_
      simp [(h x hx).2]
    simp [matchServiceFromDomain, hnone, hnone2]

/-- C3 witness: the precedence theorem applied at concrete inputs of each
phase, with every hypothesis discharged by evaluation. -/
theorem matchServiceFromDomain_precedence_witness :
    matchServiceFromDomain "eth-asset-hub-polkadot.ibp.network" ["Asset-Hub-Polkadot"] =
      "Asset-Hub-Polkadot" ∧
    matchServiceFromDomain "foo bar.ibp.network" ["Foo Bar"] = "Foo Bar" ∧
    matchServiceFromDomain "unknown-thing.ibp.network" ["Polkadot"] = "Unknown-Thing" :=
  ⟨matchServiceFromDomain_precedence.1 "eth-asset-hub-polkadot.ibp.network" []
      "Asset-Hub-Polkadot" [] (by decide) (by decide),
   matchServiceFromDomain_precedence.2.1 "foo bar.ibp.network" [] "Foo Bar" []
      (by decide) (by decide) (by decide),
   matchServiceFromDomain_precedence.2.2.1 "unknown-thing.ibp.network" ["Polkadot"] (by decide)⟩

/-- Folding the all-members event loop over only the events whose
`member_name` matches the member gives the same state: mismatched events
contribute nothing there. -/
theorem foldl_processEventAll_filter (member : Member) (l : List DowntimeEvent) :
    ∀ st : ReconState,
      (l.filter (fun e => e.member_name = member.name)).foldl (processEventAll member) st =
        l.foldl (processEventAll member) st := by
  induction l with
  | nil => intro st; rfl
  | cons e rest ih =>
    intro st
    by_cases he : e.member_name = member.name
    · rw [List.filter_cons, if_pos (by simp [he])]
      simp only [List.foldl_cons]
      exact ih (processEventAll member st e)
    · have hskip : processEventAll member st e = st := by simp [processEventAll, he]
      rw [List.filter_cons, if_neg (by simp [he])]
      simp only [List.foldl_cons, hskip]
      exact ih st

/-- C4 counterexample: the claim predicts that a cached event whose
`member_name` differs from the member's contributes nothing in
`updateMetricsForMember`, so dropping it could not change the outcome; but on
`dataMis` (one mismatched event over a required, declared service) dropping the
event changes the result — the mismatched event entered `servicesWithEvents`
and suppressed the required/no-stats fallback. -/
theorem mismatched_event_affects_single_member_pass :
    updateMetricsForMember emptyRegistry dataMis ≠
      updateMetricsForMember emptyRegistry { dataMis with downtimeEvents := [] } := by
  decide

/-- C4 (amended): an event with `member_name ≠ member.name` never increments
the counter and never sets the service gauge in either pass; in
`updateMetricsForAllMembers` it contributes nothing at all (filtering out
mismatched events leaves the per-member body unchanged); but in
`updateMetricsForMember` it still adds its combination key and resolved
service to the tracking sets that govern the fallback emissions. -/
theorem mismatched_event_handling :
    (∀ (member : Member) (st : ReconState) (e : DowntimeEvent),
       e.member_name ≠ member.name →
       (processEventSingle member st e).reg = st.reg ∧
       (processEventSingle member st e).tracked =
         addUnique st.tracked (combKey e.domain_name e.check_type e.check_name) ∧
       (processEventSingle member st e).seenServices =
         addUnique st.seenServices (matchServiceFromDomain e.domain_name member.services)) ∧
    (∀ (member : Member) (st : ReconState) (e : DowntimeEvent),
       e.member_name ≠ member.name → processEventAll member st e = st) ∧
    (∀ (reg : Registry) (d : CachedMemberData),
       applyMemberAll reg
         { d with downtimeEvents :=
             d.downtimeEvents.filter (fun e => e.member_name = d.member.name) } =
       applyMemberAll reg d) := by
  refine ⟨?_, ?_, ?_⟩
  · intro member st e h
    refine ⟨?_, ?_, ?_⟩ <;> simp [processEventSingle, h]
  · intro member st e h
    simp [processEventAll, h]
  · intro reg d
    simp only [applyMemberAll, afterRequiredAll, eventsPassAll]
    rw [foldl_processEventAll_filter]

/-- C4 witness: the amended theorem applied to the concrete mismatched event. -/
theorem mismatched_event_handling_witness :
    (processEventSingle memberMis ⟨emptyRegistry, [], []⟩ eventMis).reg = emptyRegistry ∧
    processEventAll memberMis ⟨emptyRegistry, [], []⟩ eventMis = ⟨emptyRegistry, [], []⟩ :=
  ⟨(mismatched_event_handling.1 memberMis ⟨emptyRegistry, [], []⟩ eventMis (by decide)).1,
   mismatched_event_handling.2.1 memberMis ⟨emptyRegistry, [], []⟩ eventMis (by decide)⟩

/-- When the event's `member_name` matches, the two event-loop bodies agree. -/
theorem processEvent_agree (member : Member) (st : ReconState) (e : DowntimeEvent)
    (h : e.member_name = member.name) :
    processEventSingle member st e = processEventAll member st e := by
  simp [processEventSingle, processEventAll, h]

/-- Fold version of `processEvent_agree`. -/
theorem foldl_processEvent_agree (member : Member) (l : List DowntimeEvent) :
    ∀ st : ReconState, (∀ e ∈ l, e.member_name = member.name) →
      l.foldl (processEventSingle member) st = l.foldl (processEventAll member) st := by
  induction l with
  | nil => intro st _; rfl
  | cons e rest ih =>
    intro st h
    simp only [List.foldl_cons]
    rw [processEvent_agree member st e (h e (by simp))]
    exact ih _ fun x hx => h x (by simp [hx])

/-- C5 counterexample: on `dataMis` (one event with a foreign `member_name`)
the single-member refresh and the all-members refresh derive different series
from the same cached data, so the two paths do not apply one and the same
reconciliation function. -/
theorem single_and_all_pass_differ :
    updateMetricsForMember emptyRegistry dataMis ≠
      updateMetricsForAllMembers emptyRegistry [dataMis.member] (fun _ => some dataMis) := by
  decide

/-- C5 (amended): the two refresh paths derive identical gauge assignments and
counter increments from the same cached data whenever every cached event's
`member_name` equals the member's name; they can differ when a mismatched
event is present (see the counterexample). -/
theorem single_and_all_pass_agree_on_matching_events :
    (∀ (reg : Registry) (d : CachedMemberData),
       (∀ e ∈ d.downtimeEvents, e.member_name = d.member.name) →
       applyMemberSingle reg d = applyMemberAll reg d) ∧
    (∀ (prev : Registry) (d : CachedMemberData),
       (∀ e ∈ d.downtimeEvents, e.member_name = d.member.name) →
       updateMetricsForMember prev d =
         updateMetricsForAllMembers prev [d.member] (fun _ => some d)) := by
  have part1 : ∀ (reg : Registry) (d : CachedMemberData),
      (∀ e ∈ d.downtimeEvents, e.member_name = d.member.name) →
      applyMemberSingle reg d = applyMemberAll reg d := by
    intro reg d h
    simp only [applyMemberSingle, applyMemberAll, afterRequiredSingle, afterRequiredAll,
      eventsPassSingle, eventsPassAll]
    rw [foldl_processEvent_agree d.member d.downtimeEvents _ h]
  refine ⟨part1, ?_⟩
  intro prev d h
  show applyMemberSingle (resetAll prev) d = _
  rw [part1 _ d h]
  rfl

/-- C5 witness: the amended agreement applied to the end-to-end sample data,
whose one event carries the member's own name. -/
theorem single_and_all_pass_agree_witness :
    updateMetricsForMember emptyRegistry dataC1 =
      updateMetricsForAllMembers emptyRegistry [dataC1.member] (fun _ => some dataC1) :=
  single_and_all_pass_agree_on_matching_events.2 emptyRegistry dataC1 (by decide)

/-- Membership in a JS-set insertion comes from the old set or the new element. -/
theorem mem_addUnique {xs : List String} {y x : String} (h : x ∈ addUnique xs y) :
    x ∈ xs ∨ x = y := by
  by_cases hy : y ∈ xs
  · simp only [addUnique, if_pos hy] at h
    exact .inl h
  · simp only [addUnique, if_neg hy, List.mem_append, List.mem_singleton] at h
    exact h

/-- The required-services loop never touches `servicesWithEvents`. -/
theorem requiredStep_seen (member : Member) (st : ReconState) (s : String) :
    (requiredStep member st s).seenServices = st.seenServices := by
  simp only [requiredStep]
  split_ifs <;> rfl

/-- Keys in the tracked set after one required-services iteration. -/
theorem requiredStep_tracked_mem (member : Member) (st : ReconState) (s x : String)
    (h : x ∈ (requiredStep member st s).tracked) : x ∈ st.tracked ∨ x = requiredKey s := by
  simp only [requiredStep] at h
  split_ifs at h
  · exact .inl h
  · exact .inl h
  · exact mem_addUnique h
  · exact .inl h

/-- A gauge entry of value 1 survives one required-services iteration
(the loop only ever writes the value 1). -/
theorem requiredStep_gauge_one (member : Member) (st : ReconState) (s : String)
    (L : ServiceLabels) (h : getAssoc st.reg.serviceGauge L = some 1) :
    getAssoc (requiredStep member st s).reg.serviceGauge L = some 1 := by
  simp only [requiredStep]
  split_ifs
  · exact h
  · exact h
  · rw [getAssoc_setAssoc]
    split_ifs with hL
    · rfl
    · exact h
  · exact h

/-- A gauge entry of value 1 survives the whole required-services loop. -/
theorem required_foldl_gauge_one (member : Member) (l : List String) :
    ∀ (st : ReconState) (L : ServiceLabels), getAssoc st.reg.serviceGauge L = some 1 →
      getAssoc ((l.foldl (requiredStep member) st)).reg.serviceGauge L = some 1 := by
  induction l with
  | nil => intro st L h; exact h
  | cons a rest ih =>
    intro st L h
    exact ih _ L (requiredStep_gauge_one member st a L h)

/-- The declared-services loop writes only labels with check_type "default",
so it preserves lookups at any label of a different check_type. -/
theorem defaultStep_gauge_other (member : Member) (req : List String) (st : ReconState)
    (s : String) (L : ServiceLabels) (hL : L.check_type ≠ "default") :
    getAssoc (defaultStep member req st s).reg.serviceGauge L =
      getAssoc st.reg.serviceGauge L := by
  simp only [defaultStep]
  split_ifs
  · rfl
  · rfl
  · rfl
  · exact getAssoc_setAssoc_ne _ _ _ _ fun heq => hL (by rw [← heq]; rfl)

/-- Fold version of `defaultStep_gauge_other`. -/
theorem default_foldl_gauge_other (member : Member) (req : List String) (l : List String) :
    ∀ (st : ReconState) (L : ServiceLabels), L.check_type ≠ "default" →
      getAssoc ((l.foldl (defaultStep member req) st)).reg.serviceGauge L =
        getAssoc st.reg.serviceGauge L := by
  induction l with
  | nil => intro st L _; rfl
  | cons a rest ih =>
    intro st L hL
    rw [List.foldl_cons, ih _ L hL, defaultStep_gauge_other member req st a L hL]

/-- The required-services loop sets the no-stats fallback gauge to 1 for a
required, declared service not seen with events, provided its combination key
is untracked and no other listed required service collides on the key. -/
theorem required_foldl_sets (member : Member) (s : String) (l : List String) :
    ∀ st : ReconState, s ∈ l → s ∉ st.seenServices → s ∈ member.services →
      requiredKey s ∉ st.tracked →
      (∀ s' ∈ l, s' ≠ s → requiredKey s' ≠ requiredKey s) →
      getAssoc ((l.foldl (requiredStep member) st)).reg.serviceGauge
        (requiredLabels member s) = some 1 := by
  induction l with
  | nil => intro st h; simp at h
  | cons a rest ih =>
    intro st hmem hseen hserv htr hkeys
    by_cases ha : a = s
    · subst ha
      have hfire : requiredStep member st a =
          { st with
            reg := { st.reg with
              serviceGauge := setAssoc st.reg.serviceGauge (requiredLabels member a) 1 }
            tracked := addUnique st.tracked (requiredKey a) } := by
        simp [requiredStep, hseen, hserv, htr]
      rw [List.foldl_cons, hfire]
      exact required_foldl_gauge_one member rest _ _ (getAssoc_setAssoc_self _ _ _)
    · have hs_rest : s ∈ rest := by
        rcases List.mem_cons.mp hmem with h | h
        · exact absurd h.symm ha
        · exact h
      rw [List.foldl_cons]
      refine ih _ hs_rest ?_ hserv ?_ ?_
      · rw [requiredStep_seen]; exact hseen
      · intro hin
        rcases requiredStep_tracked_mem member st a _ hin with h | h
        · exact htr h
        · exact hkeys a (by simp) ha h.symm
      · intro s' hs' hne
        exact hkeys s' (by simp [hs']) hne

/-- C2: for every member and every service s required for its tier and in its
declared services, not seen with events after event processing, the
reconciliation of updateMetricsForMember sets the service gauge to 1 (never 0)
at labels (member, s, slug-domain, "required", "no-stats", level) — provided
the seen-combination guard does not suppress it: s's combination key is not
already tracked and no other required service collides on the key. -/
theorem required_service_no_stats_up (prev : Registry) (d : CachedMemberData) (s : String)
    (h1 : s ∈ d.requiredServices) (h2 : s ∈ d.member.services)
    (h3 : s ∉ (eventsPassSingle emptyRegistry d).seenServices)
    (h4 : requiredKey s ∉ (eventsPassSingle emptyRegistry d).tracked)
    (h5 : ∀ s' ∈ d.requiredServices, s' ≠ s → requiredKey s' ≠ requiredKey s) :
    getAssoc (updateMetricsForMember prev d).serviceGauge (requiredLabels d.member s) =
      some 1 := by
  have hreq :
      getAssoc ((afterRequiredSingle emptyRegistry d)).reg.serviceGauge
        (requiredLabels d.member s) = some 1 :=
    required_foldl_sets d.member s d.requiredServices _ h1 h3 h2 h4 h5
  by_cases hact : d.member.active
  · simp only [updateMetricsForMember, applyMemberSingle, resetAll, hact, if_true]
    rw [default_foldl_gauge_other d.member d.requiredServices d.member.services _ _
      (by simp [requiredLabels])]
    exact hreq
  · simp only [updateMetricsForMember, applyMemberSingle, resetAll, hact, if_false]
    exact hreq

/-- C2 witness: a level-2 member declaring and requiring Polkadot with no
events gets the required/no-stats fallback entry of value 1. -/
theorem required_service_no_stats_up_witness :
    getAssoc
      (updateMetricsForMember emptyRegistry
        ⟨⟨"M", "r", 2, ["Polkadot"], true⟩, [], ["Polkadot"], none, 0⟩).serviceGauge
      (requiredLabels ⟨"M", "r", 2, ["Polkadot"], true⟩ "Polkadot") = some 1 :=
  required_service_no_stats_up emptyRegistry
    ⟨⟨"M", "r", 2, ["Polkadot"], true⟩, [], ["Polkadot"], none, 0⟩ "Polkadot"
    (by decide) (by decide) (by decide) (by decide) (by decide)

/-- C10: only the default/default fallback is guarded by member.active: for an
inactive member the pass ends right after the required-services loop, the
required/no-stats fallback is still emitted for a required, declared,
event-free service, and event-derived gauge and counter entries are still
written for any matching event (the event loop never consults active). -/
theorem inactive_member_keeps_required_and_event_entries :
    (∀ (prev : Registry) (d : CachedMemberData), d.member.active = false →
       updateMetricsForMember prev d = (afterRequiredSingle emptyRegistry d).reg) ∧
    (∀ (prev : Registry) (d : CachedMemberData) (s : String), d.member.active = false →
       s ∈ d.requiredServices → s ∈ d.member.services →
       s ∉ (eventsPassSingle emptyRegistry d).seenServices →
       requiredKey s ∉ (eventsPassSingle emptyRegistry d).tracked →
       (∀ s' ∈ d.requiredServices, s' ≠ s → requiredKey s' ≠ requiredKey s) →
       getAssoc (updateMetricsForMember prev d).serviceGauge (requiredLabels d.member s) =
         some 1) ∧
    (∀ (member : Member) (st : ReconState) (e : DowntimeEvent),
       e.member_name = member.name →
       getAssoc (processEventSingle member st e).reg.serviceGauge
           (eventServiceLabels member (matchServiceFromDomain e.domain_name member.services) e) =
         some (if e.status = "ongoing" then 0 else 1) ∧
       (getAssoc (processEventSingle member st e).reg.eventCounter
           (eventCounterLabels member
             (matchServiceFromDomain e.domain_name member.services) e)).isSome = true) := by
  refine ⟨?_, ?_, ?_⟩
  · intro prev d h
    simp [updateMetricsForMember, applyMemberSingle, resetAll, h]
  · intro prev d s hact h1 h2 h3 h4 h5
    have hreq :
        getAssoc ((afterRequiredSingle emptyRegistry d)).reg.serviceGauge
          (requiredLabels d.member s) = some 1 :=
      required_foldl_sets d.member s d.requiredServices _ h1 h3 h2 h4 h5
    simp only [updateMetricsForMember, applyMemberSingle, resetAll, hact, if_false]
    exact hreq
  · intro member st e h
    constructor
    · simp only [processEventSingle, h, if_pos]
      exact getAssoc_setAssoc_self _ _ _
    · simp only [processEventSingle, h, if_pos]
      rw [getAssoc_incAssoc]
      simp

/-- C10 witness: an inactive member declaring and requiring Polkadot with no
events still gets the required/no-stats entry, and a matching ongoing event
still writes its gauge and counter entries. -/
theorem inactive_member_keeps_entries_witness :
    getAssoc
      (updateMetricsForMember emptyRegistry
        ⟨⟨"I", "r", 2, ["Polkadot"], false⟩, [], ["Polkadot"], none, 0⟩).serviceGauge
      (requiredLabels ⟨"I", "r", 2, ["Polkadot"], false⟩ "Polkadot") = some 1 ∧
    getAssoc
      (processEventSingle ⟨"M", "r", 2, ["Polkadot"], false⟩ ⟨emptyRegistry, [], []⟩
        ⟨"M", "endpoint", "rpc", "polkadot.ibp.network", "ongoing"⟩).reg.serviceGauge
      (eventServiceLabels ⟨"M", "r", 2, ["Polkadot"], false⟩
        (matchServiceFromDomain "polkadot.ibp.network" ["Polkadot"])
        ⟨"M", "endpoint", "rpc", "polkadot.ibp.network", "ongoing"⟩) = some 0 :=
  ⟨inactive_member_keeps_required_and_event_entries.2.1 emptyRegistry
      ⟨⟨"I", "r", 2, ["Polkadot"], false⟩, [], ["Polkadot"], none, 0⟩ "Polkadot"
      rfl (by decide) (by decide) (by decide) (by decide) (by decide),
   by
    have h := (inactive_member_keeps_required_and_event_entries.2.2
      ⟨"M", "r", 2, ["Polkadot"], false⟩ ⟨emptyRegistry, [], []⟩
      ⟨"M", "endpoint", "rpc", "polkadot.ibp.network", "ongoing"⟩ rfl).1
    simpa using h⟩

/-- C6: when the member record is found but a sub-fetch fails,
getCachedOrFetchMemberData still succeeds: a failed events fetch degrades to an
empty event list, a failed config fetch to an empty required set (and no stored
config), and the partial result is cached under the member's name with
fetchedAt = now and reported as a fresh fetch — the sub-failure never
propagates. -/
theorem getCachedOrFetch_partial_failure (cache : Cache) (name : String) (now ttl : Int)
    (m : Member) (evs : List DowntimeEvent) (cfg : ServiceConfig)
    (h : isCacheValid cache name now ttl = false) :
    (getCachedOrFetchMemberData cache name now ttl ⟨some m, .error (), .ok cfg⟩ =
      .ok ⟨⟨m, [], getRequiredServicesByLevel m.level cfg, some cfg, now⟩,
           setAssoc cache name ⟨m, [], getRequiredServicesByLevel m.level cfg, some cfg, now⟩,
           true⟩) ∧
    (getCachedOrFetchMemberData cache name now ttl ⟨some m, .ok evs, .error ()⟩ =
      .ok ⟨⟨m, evs, [], none, now⟩, setAssoc cache name ⟨m, evs, [], none, now⟩, true⟩) ∧
    (getCachedOrFetchMemberData cache name now ttl ⟨some m, .error (), .error ()⟩ =
      .ok ⟨⟨m, [], [], none, now⟩, setAssoc cache name ⟨m, [], [], none, now⟩, true⟩) := by
  refine ⟨?_, ?_, ?_⟩ <;> simp [getCachedOrFetchMemberData, fetchFresh, h]

/-- C6 witness: both sub-fetches failing on an empty cache still yields a
cached partial result. -/
theorem getCachedOrFetch_partial_failure_witness :
    getCachedOrFetchMemberData [] "M" 0 15000 ⟨some memberC1, .error (), .error ()⟩ =
      .ok ⟨⟨memberC1, [], [], none, 0⟩, setAssoc [] "M" ⟨memberC1, [], [], none, 0⟩, true⟩ :=
  (getCachedOrFetch_partial_failure [] "M" 0 15000 memberC1 [] [] (by decide)).2.2

/-! ## Member-label closure of the reconciliation passes -/

theorem anyMember_setAssoc_service (n : String) (l : List (ServiceLabels × Int))
    (k : ServiceLabels) (v : Int) :
    ((setAssoc l k v).any fun p => decide (p.1.member = n)) =
      ((l.any fun p => decide (p.1.member = n)) || decide (k.member = n)) :=
  any_setAssoc l k v fun x => decide (x.member = n)

theorem anyMember_setAssoc_member (n : String) (l : List (MemberLabels × Int))
    (k : MemberLabels) (v : Int) :
    ((setAssoc l k v).any fun p => decide (p.1.member = n)) =
      ((l.any fun p => decide (p.1.member = n)) || decide (k.member = n)) :=
  any_setAssoc l k v fun x => decide (x.member = n)

theorem anyMember_incAssoc_event (n : String) (l : List (EventLabels × Nat))
    (k : EventLabels) :
    ((incAssoc l k).any fun p => decide (p.1.member = n)) =
      ((l.any fun p => decide (p.1.member = n)) || decide (k.member = n)) :=
  any_incAssoc l k fun x => decide (x.member = n)

theorem mentions_memberInit (reg : Registry) (member : Member) (n : String)
    (h : member.name ≠ n) :
    mentionsMember (memberInit reg member).reg n = mentionsMember reg n := by
  simp [memberInit, mentionsMember, anyMember_setAssoc_member, memberLabels, h]

theorem mentions_processEventSingle (member : Member) (st : ReconState) (e : DowntimeEvent)
    (n : String) (h : member.name ≠ n) :
    mentionsMember (processEventSingle member st e).reg n = mentionsMember st.reg n := by
  by_cases he : e.member_name = member.name
  · simp [processEventSingle, he, mentionsMember, anyMember_setAssoc_service,
      anyMember_incAssoc_event, eventServiceLabels, eventCounterLabels, h]
  · simp [processEventSingle, he]

theorem mentions_processEventAll (member : Member) (st : ReconState) (e : DowntimeEvent)
    (n : String) (h : member.name ≠ n) :
    mentionsMember (processEventAll member st e).reg n = mentionsMember st.reg n := by
  by_cases he : e.member_name = member.name
  · simp [processEventAll, he, mentionsMember, anyMember_setAssoc_service,
      anyMember_incAssoc_event, eventServiceLabels, eventCounterLabels, h]
  · simp [processEventAll, he]

theorem mentions_requiredStep (member : Member) (st : ReconState) (s : String)
    (n : String) (h : member.name ≠ n) :
    mentionsMember (requiredStep member st s).reg n = mentionsMember st.reg n := by
  simp only [requiredStep]
  split_ifs
  · rfl
  · rfl
  · simp [mentionsMember, anyMember_setAssoc_service, requiredLabels, h]
  · rfl

theorem mentions_defaultStep (member : Member) (req : List String) (st : ReconState)
    (s : String) (n : String) (h : member.name ≠ n) :
    mentionsMember (defaultStep member req st s).reg n = mentionsMember st.reg n := by
  simp only [defaultStep]
  split_ifs
  · rfl
  · rfl
  · rfl
  · simp [mentionsMember, anyMember_setAssoc_service, defaultLabels, h]

theorem mentions_foldl_eventsSingle (member : Member) (n : String) (h : member.name ≠ n)
    (l : List DowntimeEvent) :
    ∀ st : ReconState,
      mentionsMember (l.foldl (processEventSingle member) st).reg n =
        mentionsMember st.reg n := by
  induction l with
  | nil => intro st; rfl
  | cons e rest ih =>
    intro st
    rw [List.foldl_cons, ih, mentions_processEventSingle member st e n h]

theorem mentions_foldl_eventsAll (member : Member) (n : String) (h : member.name ≠ n)
    (l : List DowntimeEvent) :
    ∀ st : ReconState,
      mentionsMember (l.foldl (processEventAll member) st).reg n =
        mentionsMember st.reg n := by
  induction l with
  | nil => intro st; rfl
  | cons e rest ih =>
    intro st
    rw [List.foldl_cons, ih, mentions_processEventAll member st e n h]

theorem mentions_foldl_required (member : Member) (n : String) (h : member.name ≠ n)
    (l : List String) :
    ∀ st : ReconState,
      mentionsMember (l.foldl (requiredStep member) st).reg n = mentionsMember st.reg n := by
  induction l with
  | nil => intro st; rfl
  | cons s rest ih =>
    intro st
    rw [List.foldl_cons, ih, mentions_requiredStep member st s n h]

theorem mentions_foldl_default (member : Member) (req : List String) (n : String)
    (h : member.name ≠ n) (l : List String) :
    ∀ st : ReconState,
      mentionsMember (l.foldl (defaultStep member req) st).reg n =
        mentionsMember st.reg n := by
  induction l with
  | nil => intro st; rfl
  | cons s rest ih =>
    intro st
    rw [List.foldl_cons, ih, mentions_defaultStep member req st s n h]

/-- The single-member body writes only labels carrying the member's own name. -/
theorem mentions_applyMemberSingle (reg : Registry) (d : CachedMemberData) (n : String)
    (h : d.member.name ≠ n) :
    mentionsMember (applyMemberSingle reg d) n = mentionsMember reg n := by
  by_cases hact : d.member.active
  · simp only [applyMemberSingle, afterRequiredSingle, eventsPassSingle, hact, if_true]
    rw [mentions_foldl_default d.member d.requiredServices n h,
      mentions_foldl_required d.member n h, mentions_foldl_eventsSingle d.member n h,
      mentions_memberInit reg d.member n h]
  · simp only [applyMemberSingle, afterRequiredSingle, eventsPassSingle, hact,
      Bool.false_eq_true, if_false]
    rw [mentions_foldl_required d.member n h, mentions_foldl_eventsSingle d.member n h,
      mentions_memberInit reg d.member n h]

/-- The all-members per-member body writes only labels carrying the member's
own name. -/
theorem mentions_applyMemberAll (reg : Registry) (d : CachedMemberData) (n : String)
    (h : d.member.name ≠ n) :
    mentionsMember (applyMemberAll reg d) n = mentionsMember reg n := by
  by_cases hact : d.member.active
  · simp only [applyMemberAll, afterRequiredAll, eventsPassAll, hact, if_true]
    rw [mentions_foldl_default d.member d.requiredServices n h,
      mentions_foldl_required d.member n h, mentions_foldl_eventsAll d.member n h,
      mentions_memberInit reg d.member n h]
  · simp only [applyMemberAll, afterRequiredAll, eventsPassAll, hact,
      Bool.false_eq_true, if_false]
    rw [mentions_foldl_required d.member n h, mentions_foldl_eventsAll d.member n h,
      mentions_memberInit reg d.member n h]

/-- C7: a member whose data fetch fails is skipped without aborting the pass —
removing it from the listing gives the identical registry, so every remaining
member is processed exactly as before — and when no successfully fetched data
carries the skipped member's name, no series of the resulting registry carries
that member's label. -/
theorem updateAll_skips_failed_member :
    (∀ (prev : Registry) (ms1 : List Member) (bad : Member) (ms2 : List Member)
       (fetch : String → Option CachedMemberData),
       fetch bad.name = none →
       updateMetricsForAllMembers prev (ms1 ++ bad :: ms2) fetch =
         updateMetricsForAllMembers prev (ms1 ++ ms2) fetch) ∧
    (∀ (prev : Registry) (members : List Member) (fetch : String → Option CachedMemberData)
       (n : String),
       (∀ m ∈ members, ∀ d, fetch m.name = some d → d.member.name ≠ n) →
       mentionsMember (updateMetricsForAllMembers prev members fetch) n = false) := by
  constructor
  · intro prev ms1 bad ms2 fetch h
    simp only [updateMetricsForAllMembers, List.foldl_append, List.foldl_cons, h]
  · intro prev members fetch n h
    have hgen : ∀ (ms : List Member) (reg : Registry),
        (∀ m ∈ ms, ∀ d, fetch m.name = some d → d.member.name ≠ n) →
        mentionsMember reg n = false →
        mentionsMember
          (ms.foldl
            (fun reg m =>
              match fetch m.name with
              | none => reg
              | some d => applyMemberAll reg d)
            reg) n = false := by
      intro ms
      induction ms with
      | nil => intro reg _ hreg; exact hreg
      | cons m rest ih =>
        intro reg hms hreg
        rw [List.foldl_cons]
        rcases hf : fetch m.name with _ | d
        · simp only [hf]
          exact ih reg (fun x hx => hms x (by simp [hx])) hreg
        · simp only [hf]
          refine ih _ (fun x hx => hms x (by simp [hx])) ?_
          rw [mentions_applyMemberAll reg d n (hms m (by simp) d hf)]
          exact hreg
    exact hgen members (resetAll prev) h rfl

/-- C7 witness: with "M" fetched and "B" failing, the failed member is dropped
from the listing without changing the result, and its name labels nothing. -/
theorem updateAll_skips_failed_member_witness :
    (updateMetricsForAllMembers emptyRegistry
        [memberC1, ⟨"B", "r", 1, [], true⟩]
        (fun s => if s = "M" then some dataC1 else none) =
      updateMetricsForAllMembers emptyRegistry [memberC1]
        (fun s => if s = "M" then some dataC1 else none)) ∧
    mentionsMember
      (updateMetricsForAllMembers emptyRegistry
        [memberC1, ⟨"B", "r", 1, [], true⟩]
        (fun s => if s = "M" then some dataC1 else none)) "B" = false :=
  ⟨updateAll_skips_failed_member.1 emptyRegistry [memberC1] ⟨"B", "r", 1, [], true⟩ []
      (fun s => if s = "M" then some dataC1 else none) (by decide),
   updateAll_skips_failed_member.2 emptyRegistry [memberC1, ⟨"B", "r", 1, [], true⟩]
      (fun s => if s = "M" then some dataC1 else none) "B"
      (by
        intro m hm d hd
        rcases List.mem_cons.mp hm with rfl | hm'
        · replace hd : some dataC1 = some d := hd
          injection hd with hinj
          subst hinj
          decide
        · rcases List.mem_singleton.mp hm' with rfl
          replace hd : (none : Option CachedMemberData) = some d := hd
          exact Option.noConfusion hd)⟩

/-- A valid cache hit returns the entry unchanged with no upstream fetch. -/
theorem getCachedOrFetch_hit (cache : Cache) (name : String) (now ttl : Int) (u : Upstream)
    (c : CachedMemberData) (hc : getAssoc cache name = some c)
    (httl : now - c.fetchedAt < ttl) :
    getCachedOrFetchMemberData cache name now ttl u = .ok ⟨c, cache, false⟩ := by
  have hvalid : isCacheValid cache name now ttl = true := by
    simp [isCacheValid, hc, httl]
  simp [getCachedOrFetchMemberData, hvalid, hc]

/-- C8: both refresh passes reset all three series before any population: the
produced registry is independent of the previous registry state, and after a
single-member refresh no series carries a label combination of any other
member, so nothing set in an earlier pass can appear in the exposition. -/
theorem reconciliation_resets_before_populating :
    (∀ (prev prev' : Registry) (d : CachedMemberData),
       updateMetricsForMember prev d = updateMetricsForMember prev' d) ∧
    (∀ (prev prev' : Registry) (members : List Member)
       (fetch : String → Option CachedMemberData),
       updateMetricsForAllMembers prev members fetch =
         updateMetricsForAllMembers prev' members fetch) ∧
    (∀ (prev : Registry) (d : CachedMemberData) (n : String), n ≠ d.member.name →
       mentionsMember (updateMetricsForMember prev d) n = false) := by
  refine ⟨fun _ _ _ => rfl, fun _ _ _ _ => rfl, ?_⟩
  intro prev d n h
  show mentionsMember (applyMemberSingle emptyRegistry d) n = false
  rw [mentions_applyMemberSingle emptyRegistry d n fun heq => h heq.symm]
  rfl

/-- C8 witness: a refresh of member M leaves no series entry labeled with a
different member's name. -/
theorem reconciliation_resets_witness :
    mentionsMember (updateMetricsForMember emptyRegistry dataC1) "Other" = false :=
  reconciliation_resets_before_populating.2.2 emptyRegistry dataC1 "Other" (by decide)

/-- C9: while a cache entry is fresh (now - fetchedAt < ttl) the getter
returns it unchanged with no upstream call; a call that did fetch stores the
entry with fetchedAt = now, so a second call within the TTL window performs no
further fetch whatever the upstream would answer; and a call on an expired
entry fetches anew and replaces the entry wholesale with fetchedAt = now. -/
theorem cache_ttl_behavior :
    (∀ (cache : Cache) (name : String) (now ttl : Int) (u : Upstream)
       (c : CachedMemberData), getAssoc cache name = some c → now - c.fetchedAt < ttl →
       getCachedOrFetchMemberData cache name now ttl u = .ok ⟨c, cache, false⟩) ∧
    (∀ (cache : Cache) (name : String) (now now' ttl : Int) (u : Upstream)
       (out : FetchOutcome),
       getCachedOrFetchMemberData cache name now ttl u = .ok out → out.didFetch = true →
       now' - now < ttl →
       out.data.fetchedAt = now ∧
       ∀ u' : Upstream, getCachedOrFetchMemberData out.cache name now' ttl u' =
         .ok ⟨out.data, out.cache, false⟩) ∧
    (∀ (cache : Cache) (name : String) (now ttl : Int) (u : Upstream)
       (c : CachedMemberData) (m : Member),
       getAssoc cache name = some c → ¬ now - c.fetchedAt < ttl →
       u.memberByName = some m →
       ∃ out : FetchOutcome,
         getCachedOrFetchMemberData cache name now ttl u = .ok out ∧
         out.didFetch = true ∧ out.data.fetchedAt = now ∧
         getAssoc out.cache name = some out.data) := by
  refine ⟨getCachedOrFetch_hit, ?_, ?_⟩
  · intro cache name now now' ttl u out hrun hfetch httl
    unfold getCachedOrFetchMemberData at hrun
    rcases hscrut :
        (if isCacheValid cache name now ttl then getAssoc cache name else none) with _ | c
    · rw [hscrut] at hrun
      rcases hm : u.memberByName with _ | m
      · rw [hm] at hrun
        exact Except.noConfusion hrun
      · rw [hm] at hrun
        injection hrun with hout
        subst hout
        refine ⟨rfl, fun u' => ?_⟩
        exact getCachedOrFetch_hit _ name now' ttl u' (fetchFresh m u now)
          (getAssoc_setAssoc_self _ _ _) httl
    · rw [hscrut] at hrun
      injection hrun with hout
      subst hout
      exact absurd hfetch (by simp)
  · intro cache name now ttl u c m hc hexp hm
    have hvalid : isCacheValid cache name now ttl = false := by
      simp [isCacheValid, hc, hexp]
    refine ⟨⟨fetchFresh m u now, setAssoc cache name (fetchFresh m u now), true⟩, ?_, rfl, rfl,
      getAssoc_setAssoc_self _ _ _⟩
    simp [getCachedOrFetchMemberData, hvalid, hm]

/-- C9 witness: a hit inside the TTL window returns the cached entry even
against an upstream that would fail every call, i.e. with no upstream fetch. -/
theorem cache_ttl_behavior_witness :
    getCachedOrFetchMemberData [("M", dataC1)] "M" 5 15000 ⟨none, .error (), .error ()⟩ =
      .ok ⟨dataC1, [("M", dataC1)], false⟩ :=
  cache_ttl_behavior.1 [("M", dataC1)] "M" 5 15000 ⟨none, .error (), .error ()⟩ dataC1
    (by decide) (by decide)

end IbpGeodns
